import Mathlib

/-!
Verification of the Power Pet Door client protocol handler
(custom_components/powerpetdoor/switch.py).

The Python source is shallowly embedded: the frame scanner (the function
named with find and end, together with the scanning loop of
data_received), the device state machine (process_message), the
connection-manager operations (disconnect, connection_lost,
handle_connect_failure, send_data, send_message) and the toggle commands
are translated to pure Lean functions over an explicit state record.
Buffers are lists of characters, the current time is an abstract `Nat`
passed to each state transition, and raised Python exceptions are
modelled with `Except` or explicit boolean flags.
-/

set_option maxHeartbeats 1000000

/-- Contribution of one character to the brace depth counter of the
frame scanner: `'{'` increments, `'}'` decrements, anything else is
neutral. -/
def braceDelta (c : Char) : Int :=
  if c = '{' then 1 else if c = '}' then -1 else 0

/-- Brace depth of a character sequence: the sum of `braceDelta` over
its characters. -/
def depth : List Char → Int
  | [] => 0
  | c :: s => braceDelta c + depth s

/-- Result of the frame scanner on a buffer: `noBlock` models Python
`None` (no complete block yet), `block n` the returned end index of the
first complete block, `corrupt` the `IndexError` raised when the buffer
does not start with `'{'`. -/
inductive FrameResult where
  | noBlock : FrameResult
  | block : Nat → FrameResult
  | corrupt : FrameResult
deriving DecidableEq

/-- The character loop of the frame scanner (switch.py lines 101-111):
`parens` is the running depth entering the current character, `i` its
index; the loop returns `some (i + 1)` at the first index where the
depth returns to zero, and `none` if it never does. -/
def scanDepth : List Char → Int → Nat → Option Nat
  | [], _, _ => none
  | c :: rest, parens, i =>
    let parens' := parens + braceDelta c
    if parens' = 0 then some (i + 1) else scanDepth rest parens' (i + 1)

/-- The frame scanner function of switch.py (lines 94-111): empty buffer
yields `noBlock`; a buffer not starting with `'{'` raises (modelled as
`corrupt`); otherwise the depth loop runs from depth 0 at index 0. -/
def find_end (s : List Char) : FrameResult :=
  match s with
  | [] => FrameResult.noBlock
  | c :: _ =>
    if c = '{' then
      match scanDepth s 0 0 with
      | some n => FrameResult.block n
      | none => FrameResult.noBlock
    else FrameResult.corrupt

/-- A well-formed brace-balanced block: it starts with `'{'`, its total
brace depth is zero, and the brace depth of every nonempty proper
initial segment is positive (so the depth first returns to zero exactly
at the end of the block). -/
def WellFormedBlock (b : List Char) : Prop :=
  b.head? = some '{' ∧ depth b = 0 ∧
    ∀ m, m < b.length → 1 ≤ m → 0 < depth (b.take m)

instance (b : List Char) : Decidable (WellFormedBlock b) := by
  unfold WellFormedBlock
  infer_instance

theorem depth_append (s t : List Char) : depth (s ++ t) = depth s + depth t := by
  induction s with
  | nil => simp [depth]
  | cons c rest ih => simp [depth, ih]; ring

theorem scanDepth_bounds : ∀ (s : List Char) (d : Int) (i n : Nat),
    scanDepth s d i = some n → i + 1 ≤ n ∧ n ≤ i + s.length := by
  intro s
  induction s with
  | nil => intro d i n h; simp [scanDepth] at h
  | cons c rest ih =>
    intro d i n h
    simp only [scanDepth] at h
    split at h
    · cases h
      simp
    · have := ih _ _ _ h
      simp only [List.length_cons]
      omega

theorem scanDepth_eq_none : ∀ (s : List Char) (d : Int) (i : Nat),
    (∀ m, m ≤ s.length → 1 ≤ m → d + depth (s.take m) ≠ 0) →
    scanDepth s d i = none := by
  intro s
  induction s with
  | nil => intro d i _; rfl
  | cons c rest ih =>
    intro d i h
    simp only [scanDepth]
    have h1 : d + braceDelta c ≠ 0 := by
      have := h 1 (by simp) (by omega)
      simpa [depth] using this
    rw [if_neg h1]
    apply ih
    intro m hm1 hm2
    have := h (m + 1) (by simp; omega) (by omega)
    simpa [List.take_succ_cons, depth, add_assoc] using this

theorem scanDepth_eq_some : ∀ (s : List Char) (d : Int) (i n : Nat),
    1 ≤ n → n ≤ s.length → d + depth (s.take n) = 0 →
    (∀ m, m < n → 1 ≤ m → d + depth (s.take m) ≠ 0) →
    scanDepth s d i = some (i + n) := by
  intro s
  induction s with
  | nil =>
    intro d i n h1 h2 _ _
    simp at h2
    omega
  | cons c rest ih =>
    intro d i n h1 h2 h0 hmin
    simp only [scanDepth]
    obtain ⟨n', rfl⟩ : ∃ n', n = n' + 1 := ⟨n - 1, by omega⟩
    by_cases hn : n' = 0
    · subst hn
      have hz : d + braceDelta c = 0 := by
        simpa [List.take_succ_cons, depth] using h0
      rw [if_pos hz]
    · have hne : d + braceDelta c ≠ 0 := by
        have := hmin 1 (by omega) (by omega)
        simpa [List.take_succ_cons, depth] using this
      rw [if_neg hne]
      have hrec := ih (d + braceDelta c) (i + 1) n' (by omega)
        (by simp at h2; omega)
        (by simpa [List.take_succ_cons, depth, add_assoc] using h0)
        (fun m hm1 hm2 => by
          have := hmin (m + 1) (by omega) (by omega)
          simpa [List.take_succ_cons, depth, add_assoc] using this)
      rw [hrec]
      congr 1
      omega

theorem find_end_nil : find_end [] = FrameResult.noBlock := rfl

theorem find_end_not_brace (c : Char) (s : List Char) (h : c ≠ '{') :
    find_end (c :: s) = FrameResult.corrupt := by
  simp [find_end, h]

theorem find_end_eq_noBlock (s : List Char) (hh : s.head? = some '{')
    (h : ∀ m, m ≤ s.length → 1 ≤ m → depth (s.take m) ≠ 0) :
    find_end s = FrameResult.noBlock := by
  cases s with
  | nil => rfl
  | cons c rest =>
    simp only [List.head?_cons, Option.some.injEq] at hh
    subst hh
    simp only [find_end, if_pos rfl]
    rw [scanDepth_eq_none]
    · simp
    · intro m hm1 hm2
      simpa using h m hm1 hm2

theorem find_end_eq_block (s : List Char) (n : Nat) (hh : s.head? = some '{')
    (h1 : 1 ≤ n) (h2 : n ≤ s.length) (h0 : depth (s.take n) = 0)
    (hmin : ∀ m, m < n → 1 ≤ m → depth (s.take m) ≠ 0) :
    find_end s = FrameResult.block n := by
  cases s with
  | nil => simp at h2; omega
  | cons c rest =>
    simp only [List.head?_cons, Option.some.injEq] at hh
    subst hh
    simp only [find_end, if_pos rfl]
    have := scanDepth_eq_some ('{' :: rest) 0 0 n h1 h2 (by simpa using h0)
      (fun m hm1 hm2 => by simpa using hmin m hm1 hm2)
    rw [this]
    simp

/-- C7: edge cases of the frame scanner: on the empty buffer it yields no
block; on a non-empty buffer not starting with `'{'` it raises the
protocol-corruption error; on a buffer starting with `'{'` whose brace
depth never returns to zero it yields no block; otherwise it returns the
length of the shortest nonempty prefix over which the brace depth
returns to zero. -/
theorem find_end_edge_cases :
    find_end [] = FrameResult.noBlock
    ∧ (∀ c s, c ≠ '{' → find_end (c :: s) = FrameResult.corrupt)
    ∧ (∀ s, s.head? = some '{' →
        (∀ m, m ≤ s.length → 1 ≤ m → depth (s.take m) ≠ 0) →
        find_end s = FrameResult.noBlock)
    ∧ (∀ s n, s.head? = some '{' → 1 ≤ n → n ≤ s.length →
        depth (s.take n) = 0 →
        (∀ m, m < n → 1 ≤ m → depth (s.take m) ≠ 0) →
        find_end s = FrameResult.block n) := by
  refine ⟨find_end_nil, find_end_not_brace, find_end_eq_noBlock, find_end_eq_block⟩

/-- Witness for C7: concrete evaluations of the edge cases. -/
theorem find_end_edge_cases_example :
    find_end ['x'] = FrameResult.corrupt
    ∧ find_end ['{', '{'] = FrameResult.noBlock
    ∧ find_end ['{', 'a', '}', '}'] = FrameResult.block 3 := by
  refine ⟨find_end_edge_cases.2.1 'x' [] (by decide), ?_, ?_⟩
  · exact find_end_edge_cases.2.2.1 ['{', '{'] (by decide)
      (by decide)
  · exact find_end_edge_cases.2.2.2 ['{', 'a', '}', '}'] 3 (by decide) (by decide)
      (by decide) (by decide) (by decide)

/-- The block-extraction while-loop of data_received (switch.py lines
272-284), written with explicit fuel: each iteration asks the scanner
for the end of the first complete block, slices it off the front of the
buffer, and repeats; `Except.error` models the propagated IndexError on
a corrupt buffer. -/
def scanLoopFuel : Nat → List Char → Except Unit (List (List Char) × List Char)
  | 0, buf => Except.ok ([], buf)
  | fuel + 1, buf =>
    match find_end buf with
    | FrameResult.corrupt => Except.error ()
    | FrameResult.noBlock => Except.ok ([], buf)
    | FrameResult.block n =>
      match scanLoopFuel fuel (buf.drop n) with
      | Except.error e => Except.error e
      | Except.ok (blocks, rest) => Except.ok (buf.take n :: blocks, rest)

/-- The extraction loop with enough fuel: every extracted block is
nonempty, so `buf.length` iterations always suffice. -/
def scanLoop (buf : List Char) : Except Unit (List (List Char) × List Char) :=
  scanLoopFuel buf.length buf

/-- data_received (switch.py lines 259-284): append the decoded chunk to
the receive buffer, then run the extraction loop.  (The guard
`rawdata != ''` in the source compares bytes against a str and is hence
always true, so the loop runs on every call.) -/
def data_received (buf chunk : List Char) :
    Except Unit (List (List Char) × List Char) :=
  scanLoop (buf ++ chunk)

/-- Feeding a sequence of chunks to data_received in order, accumulating
the extracted blocks and threading the receive buffer. -/
def processChunks (buf : List Char) :
    List (List Char) → Except Unit (List (List Char) × List Char)
  | [] => Except.ok ([], buf)
  | c :: cs =>
    match data_received buf c with
    | Except.error e => Except.error e
    | Except.ok (bs1, buf1) =>
      match processChunks buf1 cs with
      | Except.error e => Except.error e
      | Except.ok (bs2, buf2) => Except.ok (bs1 ++ bs2, buf2)

theorem find_end_block_len (s : List Char) (n : Nat)
    (h : find_end s = FrameResult.block n) : 1 ≤ n ∧ n ≤ s.length := by
  cases s with
  | nil => simp [find_end] at h
  | cons c rest =>
    simp only [find_end] at h
    by_cases hc : c = '{'
    · rw [if_pos hc] at h
      cases hsd : scanDepth (c :: rest) 0 0 with
      | none => rw [hsd] at h; simp at h
      | some m =>
        rw [hsd] at h
        simp only [FrameResult.block.injEq] at h
        subst h
        have := scanDepth_bounds (c :: rest) 0 0 m hsd
        simpa using this
    · rw [if_neg hc] at h
      simp at h

theorem scanLoopFuel_irrel : ∀ (f g : Nat) (buf : List Char),
    buf.length ≤ f → buf.length ≤ g → scanLoopFuel f buf = scanLoopFuel g buf := by
  intro f
  induction f with
  | zero =>
    intro g buf hf _
    have hb : buf = [] := by
      cases buf with
      | nil => rfl
      | cons c r => simp at hf
    subst hb
    cases g with
    | zero => rfl
    | succ g' => rfl
  | succ f' ih =>
    intro g buf hf hg
    cases g with
    | zero =>
      have hb : buf = [] := by
        cases buf with
        | nil => rfl
        | cons c r => simp at hg
      subst hb
      rfl
    | succ g' =>
      cases hfe : find_end buf with
      | corrupt => simp only [scanLoopFuel, hfe]
      | noBlock => simp only [scanLoopFuel, hfe]
      | block n =>
        have hb := find_end_block_len buf n hfe
        have hlen : (buf.drop n).length ≤ f' := by simp; omega
        have hlen' : (buf.drop n).length ≤ g' := by simp; omega
        simp only [scanLoopFuel, hfe]
        rw [ih g' (buf.drop n) hlen hlen']

theorem scanLoop_unfold (buf : List Char) :
    scanLoop buf =
      match find_end buf with
      | FrameResult.corrupt => Except.error ()
      | FrameResult.noBlock => Except.ok ([], buf)
      | FrameResult.block n =>
        match scanLoop (buf.drop n) with
        | Except.error e => Except.error e
        | Except.ok (blocks, rest) => Except.ok (buf.take n :: blocks, rest) := by
  cases buf with
  | nil => rfl
  | cons c r =>
    show scanLoopFuel (r.length + 1) (c :: r) = _
    cases hfe : find_end (c :: r) with
    | corrupt => simp only [scanLoopFuel, hfe]
    | noBlock => simp only [scanLoopFuel, hfe]
    | block n =>
      have hb := find_end_block_len _ _ hfe
      have heq : scanLoopFuel r.length ((c :: r).drop n)
          = scanLoop ((c :: r).drop n) := by
        apply scanLoopFuel_irrel
        · simp at hb ⊢; omega
        · exact le_refl _
      simp only [scanLoopFuel, hfe]
      rw [heq]

theorem wf_ne_nil (b : List Char) (h : WellFormedBlock b) : b ≠ [] := by
  intro he
  subst he
  simp [WellFormedBlock] at h

theorem take_append_le {α : Type} (s t : List α) (m : Nat) (h : m ≤ s.length) :
    (s ++ t).take m = s.take m := by
  rw [List.take_append_eq_append_take, Nat.sub_eq_zero_of_le h]
  simp

theorem find_end_wf_append (b t : List Char) (h : WellFormedBlock b) :
    find_end (b ++ t) = FrameResult.block b.length := by
  obtain ⟨hh, hd, hmin⟩ := h
  have hbne : b ≠ [] := by
    intro he; subst he; simp at hh
  apply find_end_eq_block
  · cases b with
    | nil => simp at hh
    | cons c r => simpa using hh
  · cases b with
    | nil => exact absurd rfl hbne
    | cons c r => simp
  · simp
  · rw [List.take_left]
    exact hd
  · intro m hm hm1
    rw [take_append_le _ _ _ (le_of_lt hm)]
    exact (hmin m hm hm1).ne'

theorem find_end_of_proper (b s : List Char) (hwf : WellFormedBlock b)
    (hp : s <+: b) (hne : s ≠ b) : find_end s = FrameResult.noBlock := by
  obtain ⟨hh, hd, hmin⟩ := hwf
  have hlen : s.length < b.length := by
    rcases Nat.lt_or_ge s.length b.length with h | h
    · exact h
    · exact absurd (hp.eq_of_length_le h) hne
  cases s with
  | nil => rfl
  | cons c r =>
    apply find_end_eq_noBlock
    · cases b with
      | nil => simp at hh
      | cons c' r' =>
        simp only [List.head?_cons, Option.some.injEq] at hh
        rcases List.cons_prefix_cons.mp hp with ⟨hcc, _⟩
        simp [hcc, hh]
    · intro m hm hm1
      have hsb : (c :: r).take m = b.take m := by
        have hst := List.prefix_iff_eq_take.mp hp
        rw [hst, List.take_take, Nat.min_eq_left hm]
      rw [hsb]
      exact (hmin m (by omega) hm1).ne'

/-- A scanner residue: the part of the buffer left over after all
complete blocks were sliced off.  Relative to the list of blocks still
to come, it is either empty or a proper prefix of the next block. -/
def Residue (r : List Char) (bs : List (List Char)) : Prop :=
  r = [] ∨ ∃ b rest, bs = b :: rest ∧ r <+: b ∧ r ≠ b

theorem scanLoop_blocks : ∀ (bs : List (List Char)),
    (∀ b ∈ bs, WellFormedBlock b) →
    ∀ s, s <+: bs.flatten →
    ∃ bs1 bs2 r, bs = bs1 ++ bs2 ∧ s = bs1.flatten ++ r ∧ Residue r bs2 ∧
      scanLoop s = Except.ok (bs1, r) := by
  intro bs
  induction bs with
  | nil =>
    intro _ s hs
    simp only [List.flatten_nil, List.prefix_nil] at hs
    subst hs
    exact ⟨[], [], [], rfl, rfl, Or.inl rfl, rfl⟩
  | cons b rest ih =>
    intro hwf s hs
    have hwb : WellFormedBlock b := hwf b (by simp)
    rw [List.flatten_cons] at hs
    rcases Nat.lt_or_ge s.length b.length with hlt | hge
    · have hsb : s <+: b := by
        rcases List.prefix_or_prefix_of_prefix hs (List.prefix_append b rest.flatten)
          with h | h
        · exact h
        · exact absurd (h.length_le) (by omega)
      have hne : s ≠ b := by
        intro he; subst he; omega
      refine ⟨[], b :: rest, s, by simp, by simp, Or.inr ⟨b, rest, rfl, hsb, hne⟩, ?_⟩
      rw [scanLoop_unfold, find_end_of_proper b s hwb hsb hne]
    · have hbs : b <+: s := by
        rcases List.prefix_or_prefix_of_prefix hs (List.prefix_append b rest.flatten)
          with h | h
        · have := h.eq_of_length_le hge
          subst this
          exact List.prefix_refl _
        · exact h
      obtain ⟨s', rfl⟩ := hbs
      have hs' : s' <+: rest.flatten := (List.prefix_append_right_inj b).mp hs
      obtain ⟨bs1, bs2, r, hbseq, hseq, hres, hloop⟩ :=
        ih (fun x hx => hwf x (by simp [hx])) s' hs'
      refine ⟨b :: bs1, bs2, r, by simp [hbseq], ?_, hres, ?_⟩
      · rw [List.flatten_cons, hseq, List.append_assoc]
      · rw [scanLoop_unfold, find_end_wf_append b s' hwb]
        simp only [List.drop_left, List.take_left, hloop]

theorem residue_flatten_eq (r : List Char) (bs : List (List Char))
    (hwf : ∀ b ∈ bs, WellFormedBlock b) (hres : Residue r bs)
    (heq : r = bs.flatten) : bs = [] ∧ r = [] := by
  rcases hres with hr | ⟨b, rest, rfl, hp, hne⟩
  · subst hr
    refine ⟨?_, rfl⟩
    cases bs with
    | nil => rfl
    | cons b rest =>
      exfalso
      rw [List.flatten_cons] at heq
      have hb := wf_ne_nil b (hwf b (by simp))
      cases b with
      | nil => exact hb rfl
      | cons c r' => simp at heq
  · exfalso
    have h1 : r.length < b.length := by
      rcases Nat.lt_or_ge r.length b.length with h | h
      · exact h
      · exact absurd (hp.eq_of_length_le h) hne
    rw [List.flatten_cons] at heq
    have h2 : b.length ≤ r.length := by
      rw [heq]
      simp
    omega

theorem processChunks_complete : ∀ (cs bs : List (List Char)) (r : List Char),
    (∀ b ∈ bs, WellFormedBlock b) → Residue r bs →
    r ++ cs.flatten = bs.flatten →
    processChunks r cs = Except.ok (bs, []) := by
  intro cs
  induction cs with
  | nil =>
    intro bs r hwf hres heq
    simp only [List.flatten_nil, List.append_nil] at heq
    obtain ⟨h1, h2⟩ := residue_flatten_eq r bs hwf hres heq
    subst h1
    subst h2
    rfl
  | cons c cs' ih =>
    intro bs r hwf hres heq
    rw [List.flatten_cons] at heq
    have hpre : (r ++ c) <+: bs.flatten :=
      ⟨cs'.flatten, by rw [← heq]; simp [List.append_assoc]⟩
    obtain ⟨bs1, bs2, r', hbseq, hseq, hres', hloop⟩ :=
      scanLoop_blocks bs hwf (r ++ c) hpre
    have hwf2 : ∀ x ∈ bs2, WellFormedBlock x := fun x hx =>
      hwf x (by rw [hbseq]; simp [hx])
    have hx : bs1.flatten ++ (r' ++ cs'.flatten) = bs1.flatten ++ bs2.flatten := by
      rw [← List.append_assoc, ← hseq, List.append_assoc, heq, hbseq,
        List.flatten_append]
    have heq' : r' ++ cs'.flatten = bs2.flatten := List.append_cancel_left hx
    have hrec := ih bs2 r' hwf2 hres' heq'
    simp only [processChunks, data_received, hloop, hrec]
    rw [hbseq]

/-- C1: frame-scanner round trip.  For every finite sequence of
well-formed brace-balanced blocks and every way of splitting their
concatenation into successive chunks appended to the receive buffer,
the scanning loop yields exactly the original blocks, in order,
byte-for-byte, and leaves the buffer empty at the end. -/
theorem frame_scanner_round_trip (bs cs : List (List Char))
    (hwf : ∀ b ∈ bs, WellFormedBlock b) (hsplit : cs.flatten = bs.flatten) :
    processChunks [] cs = Except.ok (bs, []) := by
  apply processChunks_complete cs bs [] hwf (Or.inl rfl)
  simpa using hsplit

/-- Witness for C1: three blocks delivered as three uneven chunks,
one of which splits a block in the middle. -/
theorem frame_scanner_round_trip_example :
    processChunks [] [['{', 'a', '}', '{', '{'], ['}'], ['}', '{', '}']] =
      Except.ok ([['{', 'a', '}'], ['{', '{', '}', '}'], ['{', '}']], []) :=
  frame_scanner_round_trip
    [['{', 'a', '}'], ['{', '{', '}', '}'], ['{', '}']]
    [['{', 'a', '}', '{', '{'], ['}'], ['}', '{', '}']]
    (by decide) (by decide)

/-- The literal message-type constant COMMAND of switch.py. -/
def COMMAND : String := "cmd"

/-- The literal message-type constant CONFIG of switch.py. -/
def CONFIG : String := "config"

/-- The literal message-type constant PING of switch.py. -/
def PING : String := "PING"

/-- A decoded inbound JSON message as read by process_message: the
required `success` and `CMD` strings plus the optional fields the
branches access.  Setting values are modelled as strings, the sensor
flags as the JSON booleans they are. -/
structure InboundMsg where
  msgID : Option Int
  success : String
  CMD : String
  door_status : Option String
  settings : Option (List (String × String))
  inside : Option Bool
  outside : Option Bool
  power_state : Option String
  timersEnabled : Option String
deriving DecidableEq

/-- The mutable per-instance state of the PetDoor class (switch.py lines
116-128): msgId counter, last reply-correlation id, door status, last
status-change time, settings mapping, shutdown flag, presence flags for
the transport and the keepalive/refresh timer handles, and the receive
buffer.  The configured reconnect delay travels with the state. -/
structure PetDoorState where
  msgId : Nat
  replyMsgId : Option Int
  status : Option String
  last_change : Option Nat
  settings : List (String × String)
  shutdown : Bool
  transport : Bool
  keepalive : Bool
  refresh : Bool
  buffer : List Char
  reconnectDelay : Nat
deriving DecidableEq

/-- The class-attribute defaults of PetDoor (msgId = 1, everything else
null / empty / absent), carrying the configured reconnect delay. -/
def initPetDoor (reconnectDelay : Nat) : PetDoorState :=
  { msgId := 1, replyMsgId := none, status := none, last_change := none,
    settings := [], shutdown := false, transport := false, keepalive := false,
    refresh := false, buffer := [], reconnectDelay := reconnectDelay }

/-- Python dict update `d[k] = v` on the association-list model: replace
the value of an existing key in place, else append the new pair. -/
def dictInsert : List (String × String) → String → String → List (String × String)
  | [], k, v => [(k, v)]
  | (k', v') :: rest, k, v =>
    if k' = k then (k, v) :: rest else (k', v') :: dictInsert rest k v

/-- Lines 287-288 of process_message: if a msgID field is present,
record it as the reply-correlation id. -/
def pmRecordReply (st : PetDoorState) (msg : InboundMsg) : PetDoorState :=
  match msg.msgID with
  | some i => { st with replyMsgId := some i }
  | none => st

/-- Lines 291-295 of process_message: the door-status branch.  Accessing
the door_status field raises KeyError when it is absent; otherwise
last_change is stamped exactly when the previous status is non-null and
differs, and status is updated. -/
def pmDoorStatus (st : PetDoorState) (msg : InboundMsg) (now : Nat) :
    Except Unit PetDoorState :=
  if msg.CMD = "GET_DOOR_STATUS" ∨ msg.CMD = "DOOR_STATUS" then
    match msg.door_status with
    | none => Except.error ()
    | some d =>
      Except.ok { st with
        last_change :=
          if st.status ≠ none ∧ st.status ≠ some d then some now
          else st.last_change,
        status := some d }
  else Except.ok st

/-- Lines 297-304 of process_message: the GET_SETTINGS branch replaces
the settings mapping wholesale with the message's settings object
(KeyError when absent) and restarts the refresh timer. -/
def pmGetSettings (st : PetDoorState) (msg : InboundMsg) :
    Except Unit PetDoorState :=
  if msg.CMD = "GET_SETTINGS" then
    match msg.settings with
    | none => Except.error ()
    | some s => Except.ok { st with settings := s, refresh := true }
  else Except.ok st

/-- Lines 306-311 of process_message: the sensor branch merges the
inside/outside boolean fields (when present) into settings as the
strings "true"/"false". -/
def pmSensors (st : PetDoorState) (msg : InboundMsg) : PetDoorState :=
  if msg.CMD = "GET_SENSORS" ∨ msg.CMD = "ENABLE_INSIDE"
      ∨ msg.CMD = "DISABLE_INSIDE" ∨ msg.CMD = "ENABLE_OUTSIDE"
      ∨ msg.CMD = "DISABLE_OUTSIDE" then
    let a := match msg.inside with
      | some b =>
        { st with settings :=
            dictInsert st.settings "inside" (if b then "true" else "false") }
      | none => st
    match msg.outside with
    | some b =>
      { a with settings :=
          dictInsert a.settings "outside" (if b then "true" else "false") }
    | none => a
  else st

/-- Lines 313-316 of process_message: the power branch merges the
power_state field into settings when present. -/
def pmPower (st : PetDoorState) (msg : InboundMsg) : PetDoorState :=
  if msg.CMD = "GET_POWER" ∨ msg.CMD = "POWER_ON"
      ∨ msg.CMD = "POWER_OFF" then
    match msg.power_state with
    | some p => { st with settings := dictInsert st.settings "power_state" p }
    | none => st
  else st

/-- Lines 318-321 of process_message: the timers branch merges the
timersEnabled field into settings when present. -/
def pmTimers (st : PetDoorState) (msg : InboundMsg) : PetDoorState :=
  if msg.CMD = "GET_TIMERS_ENABLED" ∨ msg.CMD = "ENABLE_TIMERS"
      ∨ msg.CMD = "DISABLE_TIMERS" then
    match msg.timersEnabled with
    | some t => { st with settings := dictInsert st.settings "timersEnabled" t }
    | none => st
  else st

/-- process_message (switch.py lines 286-323), as the sequence of its
statements: record the reply id, then, when the success field is the
string "true", run the successive CMD branches in source order; when it
is not, change nothing further (the error is only logged).  `now` is the
current UTC time as an abstract number; `Except.error` is a raised
KeyError. -/
def process_message (st : PetDoorState) (msg : InboundMsg) (now : Nat) :
    Except Unit PetDoorState :=
  let st0 := pmRecordReply st msg
  if msg.success = "true" then
    match pmDoorStatus st0 msg now with
    | Except.error e => Except.error e
    | Except.ok st1 =>
      match pmGetSettings st1 msg with
      | Except.error e => Except.error e
      | Except.ok st2 =>
        Except.ok (pmTimers (pmPower (pmSensors st2 msg) msg) msg)
  else
    Except.ok st0

/-- Processing a sequence of decoded inbound events, each stamped with
the clock value at its processing time. -/
def processEvents (st : PetDoorState) :
    List (InboundMsg × Nat) → Except Unit PetDoorState
  | [] => Except.ok st
  | (m, t) :: rest =>
    match process_message st m t with
    | Except.error e => Except.error e
    | Except.ok st' => processEvents st' rest

/-- A successful DOOR_STATUS push event carrying door status `d`. -/
def doorStatusEvent (d : String) : InboundMsg :=
  { msgID := none, success := "true", CMD := "DOOR_STATUS",
    door_status := some d, settings := none, inside := none,
    outside := none, power_state := none, timersEnabled := none }

theorem process_message_door_status (st : PetDoorState) (msg : InboundMsg)
    (now : Nat) (d : String) (hs : msg.success = "true")
    (hc : msg.CMD = "GET_DOOR_STATUS" ∨ msg.CMD = "DOOR_STATUS")
    (hd : msg.door_status = some d) :
    ∃ st', process_message st msg now = Except.ok st'
      ∧ st'.status = some d
      ∧ st'.last_change =
          (if st.status ≠ none ∧ st.status ≠ some d then some now
           else st.last_change)
      ∧ st'.settings = st.settings := by
  cases hmi : msg.msgID with
  | none =>
    refine ⟨{ st with
        status := some d,
        last_change := if st.status ≠ none ∧ st.status ≠ some d then some now
          else st.last_change }, ?_, rfl, rfl, rfl⟩
    rcases hc with hc | hc <;>
      simp [process_message, pmRecordReply, pmDoorStatus, pmGetSettings,
        pmSensors, pmPower, pmTimers, hs, hc, hd, hmi]
  | some i =>
    refine ⟨{ st with
        replyMsgId := some i,
        status := some d,
        last_change := if st.status ≠ none ∧ st.status ≠ some d then some now
          else st.last_change }, ?_, rfl, rfl, rfl⟩
    rcases hc with hc | hc <;>
      simp [process_message, pmRecordReply, pmDoorStatus, pmGetSettings,
        pmSensors, pmPower, pmTimers, hs, hc, hd, hmi]

/-- C2: for every successful door-status event, last_change is set to
the current time exactly when the previous status was non-null and
differs from the new value; and for the event sequence OPEN, OPEN,
CLOSED starting from null status, last_change is set exactly once, at
the OPEN-to-CLOSED transition. -/
theorem status_change_timestamping :
    (∀ (st : PetDoorState) (msg : InboundMsg) (now : Nat) (d : String),
      msg.success = "true" →
      (msg.CMD = "GET_DOOR_STATUS" ∨ msg.CMD = "DOOR_STATUS") →
      msg.door_status = some d →
      ∃ st', process_message st msg now = Except.ok st'
        ∧ st'.status = some d
        ∧ st'.last_change =
            (if st.status ≠ none ∧ st.status ≠ some d then some now
             else st.last_change)
        ∧ st'.settings = st.settings)
    ∧ (processEvents (initPetDoor 30)
        [(doorStatusEvent "OPEN", 1)]).map PetDoorState.last_change
        = Except.ok none
    ∧ (processEvents (initPetDoor 30)
        [(doorStatusEvent "OPEN", 1), (doorStatusEvent "OPEN", 2)]).map
        PetDoorState.last_change = Except.ok none
    ∧ (processEvents (initPetDoor 30)
        [(doorStatusEvent "OPEN", 1), (doorStatusEvent "OPEN", 2),
          (doorStatusEvent "CLOSED", 3)]).map PetDoorState.last_change
        = Except.ok (some 3) := by
  refine ⟨process_message_door_status, rfl, rfl, rfl⟩

/-- Witness for C2: a concrete OPEN-to-CLOSED transition stamps the
current time. -/
theorem status_change_timestamping_example :
    ∃ st', process_message { initPetDoor 30 with status := some "OPEN" }
        (doorStatusEvent "CLOSED") 5 = Except.ok st'
      ∧ st'.status = some "CLOSED"
      ∧ st'.last_change = some 5
      ∧ st'.settings = [] := by
  obtain ⟨st', h1, h2, h3, h4⟩ := status_change_timestamping.1
    { initPetDoor 30 with status := some "OPEN" } (doorStatusEvent "CLOSED") 5
    "CLOSED" rfl (Or.inr rfl) rfl
  refine ⟨st', h1, h2, ?_, h4⟩
  rw [h3]
  simp [initPetDoor]

/-- C5: error atomicity.  For every decoded inbound message whose
success field is not the string "true", process_message succeeds and
leaves status, last_change and the settings mapping unchanged, recording
only the reply-correlation id when a msgID field is present. -/
theorem error_atomicity (st : PetDoorState) (msg : InboundMsg) (now : Nat)
    (hs : msg.success ≠ "true") :
    ∃ st', process_message st msg now = Except.ok st'
      ∧ st'.status = st.status
      ∧ st'.last_change = st.last_change
      ∧ st'.settings = st.settings
      ∧ st'.replyMsgId =
          (match msg.msgID with
           | some i => some i
           | none => st.replyMsgId) := by
  cases hmi : msg.msgID with
  | none =>
    exact ⟨st, by simp [process_message, pmRecordReply, hs, hmi], rfl, rfl, rfl, rfl⟩
  | some i =>
    exact ⟨{ st with replyMsgId := some i },
      by simp [process_message, pmRecordReply, hs, hmi], rfl, rfl, rfl, rfl⟩

/-- Witness for C5: a concrete failed reply leaves the state unchanged
apart from the recorded reply id. -/
theorem error_atomicity_example :
    ∃ st', process_message { initPetDoor 30 with status := some "DOOR_OPEN" }
        { msgID := some 7, success := "false", CMD := "DOOR_STATUS",
          door_status := some "DOOR_CLOSED", settings := none, inside := none,
          outside := none, power_state := none, timersEnabled := none } 9
        = Except.ok st'
      ∧ st'.status = some "DOOR_OPEN"
      ∧ st'.last_change = none
      ∧ st'.settings = []
      ∧ st'.replyMsgId = some 7 := by
  obtain ⟨st', h1, h2, h3, h4, h5⟩ := error_atomicity
    { initPetDoor 30 with status := some "DOOR_OPEN" }
    { msgID := some 7, success := "false", CMD := "DOOR_STATUS",
      door_status := some "DOOR_CLOSED", settings := none, inside := none,
      outside := none, power_state := none, timersEnabled := none } 9
    (by decide)
  exact ⟨st', h1, h2, h3, h4, h5⟩

theorem dictInsert_lookup_isSome (m : List (String × String)) (k v k' : String)
    (h : (m.lookup k').isSome = true) :
    ((dictInsert m k v).lookup k').isSome = true := by
  induction m with
  | nil => simp [List.lookup] at h
  | cons p rest ih =>
    obtain ⟨a, b⟩ := p
    simp only [dictInsert]
    by_cases hak : a = k
    · rw [if_pos hak]
      subst hak
      cases hbe : k' == a with
      | true => simp [List.lookup, hbe]
      | false =>
        simp only [List.lookup, hbe] at h ⊢
        exact h
    · rw [if_neg hak]
      cases hbe : k' == a with
      | true => simp [List.lookup, hbe]
      | false =>
        simp only [List.lookup, hbe] at h ⊢
        exact ih h

theorem pmRecordReply_settings (st : PetDoorState) (msg : InboundMsg) :
    (pmRecordReply st msg).settings = st.settings := by
  cases hmi : msg.msgID <;> simp [pmRecordReply, hmi]

theorem pmDoorStatus_settings (st : PetDoorState) (msg : InboundMsg)
    (now : Nat) (st1 : PetDoorState)
    (h : pmDoorStatus st msg now = Except.ok st1) :
    st1.settings = st.settings := by
  unfold pmDoorStatus at h
  split at h
  · cases hd : msg.door_status with
    | none => rw [hd] at h; simp at h
    | some d =>
      rw [hd] at h
      simp only [Except.ok.injEq] at h
      subst h
      rfl
  · simp only [Except.ok.injEq] at h
    subst h
    rfl

theorem pmSensors_preserves (st : PetDoorState) (msg : InboundMsg) (k : String)
    (hk : (st.settings.lookup k).isSome = true) :
    ((pmSensors st msg).settings.lookup k).isSome = true := by
  unfold pmSensors
  split
  · cases hi : msg.inside with
    | none =>
      cases ho : msg.outside with
      | none => exact hk
      | some b => exact dictInsert_lookup_isSome _ _ _ _ hk
    | some b =>
      cases ho : msg.outside with
      | none => exact dictInsert_lookup_isSome _ _ _ _ hk
      | some b' =>
        exact dictInsert_lookup_isSome _ _ _ _ (dictInsert_lookup_isSome _ _ _ _ hk)
  · exact hk

theorem pmPower_preserves (st : PetDoorState) (msg : InboundMsg) (k : String)
    (hk : (st.settings.lookup k).isSome = true) :
    ((pmPower st msg).settings.lookup k).isSome = true := by
  unfold pmPower
  split
  · cases hp : msg.power_state with
    | none => exact hk
    | some p => exact dictInsert_lookup_isSome _ _ _ _ hk
  · exact hk

theorem pmTimers_preserves (st : PetDoorState) (msg : InboundMsg) (k : String)
    (hk : (st.settings.lookup k).isSome = true) :
    ((pmTimers st msg).settings.lookup k).isSome = true := by
  unfold pmTimers
  split
  · cases ht : msg.timersEnabled with
    | none => exact hk
    | some t => exact dictInsert_lookup_isSome _ _ _ _ hk
  · exact hk

/-- C6 (amended): across the processing of every inbound event that is
not a successful GET_SETTINGS reply, the settings mapping only grows:
every key present before processing is still present afterwards.  (A
successful GET_SETTINGS reply instead replaces the mapping wholesale
with the message's settings object.) -/
theorem settings_growth_amended (st : PetDoorState) (msg : InboundMsg)
    (now : Nat) (st' : PetDoorState)
    (h : process_message st msg now = Except.ok st')
    (hng : ¬(msg.success = "true" ∧ msg.CMD = "GET_SETTINGS")) :
    ∀ k, (st.settings.lookup k).isSome = true →
      (st'.settings.lookup k).isSome = true := by
  intro k hk
  by_cases hs : msg.success = "true"
  · have hcmd : msg.CMD ≠ "GET_SETTINGS" := fun hc => hng ⟨hs, hc⟩
    simp only [process_message, if_pos hs] at h
    cases hd : pmDoorStatus (pmRecordReply st msg) msg now with
    | error e => rw [hd] at h; simp at h
    | ok st1 =>
      rw [hd] at h
      have hgs : pmGetSettings st1 msg = Except.ok st1 := by
        simp [pmGetSettings, hcmd]
      simp only [hgs, Except.ok.injEq] at h
      subst h
      have h1 : (st1.settings.lookup k).isSome = true := by
        rw [pmDoorStatus_settings _ _ _ _ hd, pmRecordReply_settings]
        exact hk
      exact pmTimers_preserves _ _ _ (pmPower_preserves _ _ _
        (pmSensors_preserves _ _ _ h1))
  · simp only [process_message, if_neg hs, Except.ok.injEq] at h
    subst h
    rw [pmRecordReply_settings]
    exact hk

/-- Counterexample to C6 as stated: a successful GET_SETTINGS reply
whose settings object is empty clears the mapping, dropping the
previously present "inside" key. -/
theorem settings_wholesale_replacement_example :
    ({ initPetDoor 30 with
      settings := [("inside", "true")] } : PetDoorState).settings.lookup "inside"
        = some "true"
    ∧ (process_message { initPetDoor 30 with settings := [("inside", "true")] }
        { msgID := none, success := "true", CMD := "GET_SETTINGS",
          door_status := none, settings := some [], inside := none,
          outside := none, power_state := none, timersEnabled := none } 0).map
        PetDoorState.settings = Except.ok [] := by
  exact ⟨rfl, rfl⟩

/-- Witness for C6 (amended): a successful ENABLE_INSIDE update changes
the stored value but keeps the key present. -/
theorem settings_growth_amended_example :
    ((({ initPetDoor 30 with
      settings := [("inside", "true")] } : PetDoorState).settings.lookup
        "inside").isSome = true)
    ∧ ((([("inside", "false")] : List (String × String)).lookup
        "inside").isSome = true) := by
  constructor
  · exact (by rfl)
  · exact settings_growth_amended
      { initPetDoor 30 with settings := [("inside", "true")] }
      { msgID := none, success := "true", CMD := "ENABLE_INSIDE",
        door_status := none, settings := none, inside := some false,
        outside := none, power_state := none, timersEnabled := none } 0
      { initPetDoor 30 with settings := [("inside", "false")] }
      (by rfl) (by simp) "inside" (by rfl)

/-- The is_on property (switch.py lines 339-341): status not in
("DOOR_IDLE", "DOOR_CLOSED"). -/
def is_on (st : PetDoorState) : Bool :=
  if st.status = some "DOOR_IDLE" ∨ st.status = some "DOOR_CLOSED" then false
  else true

/-- C10: while the door status is still unknown (null), is_on reports
true, because null is neither DOOR_IDLE nor DOOR_CLOSED; in particular a
freshly started instance reads as on. -/
theorem is_on_unknown_status (st : PetDoorState) (delay : Nat) :
    is_on { st with status := none } = true
    ∧ is_on (initPetDoor delay) = true := by
  constructor <;> simp [is_on, initPetDoor]

/-- disconnect (switch.py lines 210-222): cancel and drop the keepalive
and refresh handles, close and drop the transport.  The method's final
statement is `self_.buffer = ''`: the name `self_` is unbound, so the
method then raises NameError unconditionally, and the receive buffer is
never cleared.  The boolean in the result records that the call raised. -/
def disconnect (st : PetDoorState) : PetDoorState × Bool :=
  ({ st with keepalive := false, refresh := false, transport := false }, true)

/-- A connected state with live timers and a non-empty receive buffer. -/
def stConnected : PetDoorState :=
  { initPetDoor 30 with
    keepalive := true,
    refresh := true,
    transport := true,
    buffer := ['{', 'x'] }

/-- C3 (code bug): evaluated on a connected state with a non-empty
buffer, disconnect raises NameError (second component true) and leaves
the receive buffer untouched, although it does cancel both timer handles
and drop the transport. -/
theorem disconnect_raises_nameerror :
    (disconnect stConnected).2 = true
    ∧ (disconnect stConnected).1.buffer = ['{', 'x']
    ∧ (disconnect stConnected).1.keepalive = false
    ∧ (disconnect stConnected).1.refresh = false
    ∧ (disconnect stConnected).1.transport = false := by
  exact ⟨rfl, rfl, rfl, rfl, rfl⟩

/-- config_toggle_inside (switch.py lines 391-396): skipped entirely
when the settings mapping is empty (falsy); otherwise reads
settings["inside"] (KeyError when absent) and issues the opposite
enable/disable config command.  The result is the list of
(type, payload) messages sent. -/
def config_toggle_inside (st : PetDoorState) :
    Except Unit (List (String × String)) :=
  if st.settings = [] then Except.ok []
  else
    match st.settings.lookup "inside" with
    | none => Except.error ()
    | some v =>
      if v = "true" then Except.ok [(CONFIG, "DISABLE_INSIDE")]
      else if v = "false" then Except.ok [(CONFIG, "ENABLE_INSIDE")]
      else Except.ok []

/-- config_toggle_outside (switch.py lines 404-409). -/
def config_toggle_outside (st : PetDoorState) :
    Except Unit (List (String × String)) :=
  if st.settings = [] then Except.ok []
  else
    match st.settings.lookup "outside" with
    | none => Except.error ()
    | some v =>
      if v = "true" then Except.ok [(CONFIG, "DISABLE_OUTSIDE")]
      else if v = "false" then Except.ok [(CONFIG, "ENABLE_OUTSIDE")]
      else Except.ok []

/-- config_toggle_auto (switch.py lines 417-422). -/
def config_toggle_auto (st : PetDoorState) :
    Except Unit (List (String × String)) :=
  if st.settings = [] then Except.ok []
  else
    match st.settings.lookup "timersEnabled" with
    | none => Except.error ()
    | some v =>
      if v = "true" then Except.ok [(CONFIG, "DISABLE_TIMERS")]
      else if v = "false" then Except.ok [(CONFIG, "ENABLE_TIMERS")]
      else Except.ok []

/-- config_power_toggle (switch.py lines 430-435). -/
def config_power_toggle (st : PetDoorState) :
    Except Unit (List (String × String)) :=
  if st.settings = [] then Except.ok []
  else
    match st.settings.lookup "power_state" with
    | none => Except.error ()
    | some v =>
      if v = "true" then Except.ok [(CONFIG, "POWER_OFF")]
      else if v = "false" then Except.ok [(CONFIG, "POWER_ON")]
      else Except.ok []

theorem lookup_ne_nil {m : List (String × String)} {k v : String}
    (h : m.lookup k = some v) : m ≠ [] := by
  intro he
  subst he
  simp [List.lookup] at h

/-- C4 (amended): each toggle sends exactly one disable command when its
cached setting string is "true" and exactly one enable command when it
is "false"; with an empty settings mapping, or when the cached value is
present but is some string other than "true"/"false", it sends nothing
and raises nothing; but with a non-empty settings mapping that lacks the
key it raises KeyError instead of silently doing nothing. -/
theorem toggle_semantics_amended (st : PetDoorState) :
    ((st.settings = [] → config_toggle_inside st = Except.ok [])
      ∧ (st.settings.lookup "inside" = some "true" →
          config_toggle_inside st = Except.ok [(CONFIG, "DISABLE_INSIDE")])
      ∧ (st.settings.lookup "inside" = some "false" →
          config_toggle_inside st = Except.ok [(CONFIG, "ENABLE_INSIDE")])
      ∧ (∀ v, st.settings.lookup "inside" = some v → v ≠ "true" → v ≠ "false" →
          config_toggle_inside st = Except.ok [])
      ∧ (st.settings ≠ [] → st.settings.lookup "inside" = none →
          config_toggle_inside st = Except.error ()))
    ∧ ((st.settings = [] → config_toggle_outside st = Except.ok [])
      ∧ (st.settings.lookup "outside" = some "true" →
          config_toggle_outside st = Except.ok [(CONFIG, "DISABLE_OUTSIDE")])
      ∧ (st.settings.lookup "outside" = some "false" →
          config_toggle_outside st = Except.ok [(CONFIG, "ENABLE_OUTSIDE")])
      ∧ (∀ v, st.settings.lookup "outside" = some v → v ≠ "true" → v ≠ "false" →
          config_toggle_outside st = Except.ok [])
      ∧ (st.settings ≠ [] → st.settings.lookup "outside" = none →
          config_toggle_outside st = Except.error ()))
    ∧ ((st.settings = [] → config_toggle_auto st = Except.ok [])
      ∧ (st.settings.lookup "timersEnabled" = some "true" →
          config_toggle_auto st = Except.ok [(CONFIG, "DISABLE_TIMERS")])
      ∧ (st.settings.lookup "timersEnabled" = some "false" →
          config_toggle_auto st = Except.ok [(CONFIG, "ENABLE_TIMERS")])
      ∧ (∀ v, st.settings.lookup "timersEnabled" = some v → v ≠ "true" →
          v ≠ "false" → config_toggle_auto st = Except.ok [])
      ∧ (st.settings ≠ [] → st.settings.lookup "timersEnabled" = none →
          config_toggle_auto st = Except.error ()))
    ∧ ((st.settings = [] → config_power_toggle st = Except.ok [])
      ∧ (st.settings.lookup "power_state" = some "true" →
          config_power_toggle st = Except.ok [(CONFIG, "POWER_OFF")])
      ∧ (st.settings.lookup "power_state" = some "false" →
          config_power_toggle st = Except.ok [(CONFIG, "POWER_ON")])
      ∧ (∀ v, st.settings.lookup "power_state" = some v → v ≠ "true" →
          v ≠ "false" → config_power_toggle st = Except.ok [])
      ∧ (st.settings ≠ [] → st.settings.lookup "power_state" = none →
          config_power_toggle st = Except.error ())) := by
  refine ⟨⟨?_, ?_, ?_, ?_, ?_⟩, ⟨?_, ?_, ?_, ?_, ?_⟩, ⟨?_, ?_, ?_, ?_, ?_⟩,
    ⟨?_, ?_, ?_, ?_, ?_⟩⟩
  · intro h; simp [config_toggle_inside, h]
  · intro h; simp [config_toggle_inside, lookup_ne_nil h, h]
  · intro h; simp [config_toggle_inside, lookup_ne_nil h, h]
  · intro v h hv1 hv2; simp [config_toggle_inside, lookup_ne_nil h, h, hv1, hv2]
  · intro hne h; simp [config_toggle_inside, hne, h]
  · intro h; simp [config_toggle_outside, h]
  · intro h; simp [config_toggle_outside, lookup_ne_nil h, h]
  · intro h; simp [config_toggle_outside, lookup_ne_nil h, h]
  · intro v h hv1 hv2; simp [config_toggle_outside, lookup_ne_nil h, h, hv1, hv2]
  · intro hne h; simp [config_toggle_outside, hne, h]
  · intro h; simp [config_toggle_auto, h]
  · intro h; simp [config_toggle_auto, lookup_ne_nil h, h]
  · intro h; simp [config_toggle_auto, lookup_ne_nil h, h]
  · intro v h hv1 hv2; simp [config_toggle_auto, lookup_ne_nil h, h, hv1, hv2]
  · intro hne h; simp [config_toggle_auto, hne, h]
  · intro h; simp [config_power_toggle, h]
  · intro h; simp [config_power_toggle, lookup_ne_nil h, h]
  · intro h; simp [config_power_toggle, lookup_ne_nil h, h]
  · intro v h hv1 hv2; simp [config_power_toggle, lookup_ne_nil h, h, hv1, hv2]
  · intro hne h; simp [config_power_toggle, hne, h]

/-- Counterexample to C4 as stated: with a non-empty settings mapping
that lacks the "inside" key, config_toggle_inside raises KeyError
instead of sending nothing and raising nothing. -/
theorem toggle_inside_keyerror_example :
    config_toggle_inside
      { initPetDoor 30 with settings := [("outside", "true")] }
      = Except.error () := rfl

/-- Witness for C4 (amended): with "inside" cached as "true", exactly
one DISABLE_INSIDE config message is issued. -/
theorem toggle_semantics_amended_example :
    config_toggle_inside
      { initPetDoor 30 with settings := [("inside", "true")] }
      = Except.ok [(CONFIG, "DISABLE_INSIDE")] :=
  (toggle_semantics_amended
    { initPetDoor 30 with settings := [("inside", "true")] }).1.2.1 (by rfl)

/-- The outbound message built by send_message (switch.py line 328):
`{ type: arg, "msgId": msgId, "dir": "p2d" }`. -/
structure OutboundMsg where
  ty : String
  payload : String
  msgId : Nat
  dir : String
deriving DecidableEq

/-- send_data (switch.py lines 242-257): warn and do nothing without a
transport; otherwise cancel the keepalive, attempt the write (its
outcome is the `writeOk` input), restart the keepalive on success; on a
RuntimeError schedule a reconnect with the configured delay unless
shutdown was requested.  The second component is the delay of the
scheduled reconnect, if one was scheduled. -/
def send_data (st : PetDoorState) (_data : OutboundMsg) (writeOk : Bool) :
    PetDoorState × Option Nat :=
  if st.transport = false then (st, none)
  else
    let st1 := { st with keepalive := false }
    if writeOk then ({ st1 with keepalive := true }, none)
    else (st1, if st.shutdown then none else some st.reconnectDelay)

/-- send_message (switch.py lines 325-329): read the counter, increment
it by one, hand the built message to send_data, and return the read
counter value as the assigned msgId. -/
def send_message (st : PetDoorState) (ty arg : String) (writeOk : Bool) :
    Nat × PetDoorState :=
  let msgId := st.msgId
  let st1 := { st with msgId := st.msgId + 1 }
  let res := send_data st1 { ty := ty, payload := arg, msgId := msgId, dir := "p2d" }
    writeOk
  (msgId, res.1)

/-- Iterating send_message over a list of requests (type, payload, write
outcome), collecting the returned msgIds in order. -/
def sendSeq (st : PetDoorState) : List (String × String × Bool) → List Nat × PetDoorState
  | [] => ([], st)
  | (ty, arg, w) :: rest =>
    let r := send_message st ty arg w
    let rs := sendSeq r.2 rest
    (r.1 :: rs.1, rs.2)

theorem send_data_msgId (st : PetDoorState) (d : OutboundMsg) (w : Bool) :
    (send_data st d w).1.msgId = st.msgId := by
  unfold send_data
  split
  · rfl
  · split <;> rfl

theorem send_message_fst (st : PetDoorState) (ty arg : String) (w : Bool) :
    (send_message st ty arg w).1 = st.msgId := rfl

theorem send_message_snd_msgId (st : PetDoorState) (ty arg : String) (w : Bool) :
    (send_message st ty arg w).2.msgId = st.msgId + 1 := by
  unfold send_message
  rw [send_data_msgId]

theorem sendSeq_ids : ∀ (calls : List (String × String × Bool)) (st : PetDoorState),
    (sendSeq st calls).1 = (List.range calls.length).map (fun k => st.msgId + k) := by
  intro calls
  induction calls with
  | nil => intro st; rfl
  | cons c rest ih =>
    intro st
    obtain ⟨ty, arg, w⟩ := c
    simp only [sendSeq, ih, send_message_fst, send_message_snd_msgId,
      List.length_cons, List.range_succ_eq_map, List.map_cons, List.map_map,
      List.cons.injEq]
    constructor
    · omega
    · apply List.map_congr_left
      intro a _
      simp [Function.comp]
      omega

/-- C8: send_message returns the msgId it assigned and increments the
counter by exactly one, so the msgIds returned across any sequence of
send_message calls are strictly increasing (hence unique). -/
theorem send_message_msgid_props (st : PetDoorState) (ty arg : String) (w : Bool) :
    (send_message st ty arg w).1 = st.msgId
    ∧ (send_message st ty arg w).2.msgId = st.msgId + 1
    ∧ ∀ calls : List (String × String × Bool),
        List.Pairwise (· < ·) (sendSeq st calls).1 := by
  refine ⟨send_message_fst st ty arg w, send_message_snd_msgId st ty arg w, ?_⟩
  intro calls
  rw [sendSeq_ids]
  refine List.Pairwise.map _ (fun a b hab => ?_) (List.pairwise_lt_range _)
  omega

/-- connection_lost (switch.py lines 198-202): schedule a reconnect with
the configured delay unless shutdown was requested.  The result is the
delay of the scheduled reconnect, if one was scheduled. -/
def connection_lost (st : PetDoorState) : Option Nat :=
  if st.shutdown then none else some st.reconnectDelay

/-- handle_connect_failure (switch.py lines 224-228): schedule a
reconnect with the configured delay unless shutdown was requested. -/
def handle_connect_failure (st : PetDoorState) : Option Nat :=
  if st.shutdown then none else some st.reconnectDelay

/-- C9: connection_lost and handle_connect_failure schedule a reconnect
with the fixed configured delay exactly when shutdown has not been
requested, and a send_data write failure schedules one only under the
same condition and with the same delay; under shutdown nothing ever
schedules a reconnect. -/
theorem reconnect_shutdown_suppression (st : PetDoorState) (d : OutboundMsg)
    (w : Bool) :
    (connection_lost st = none ↔ st.shutdown = true)
    ∧ (connection_lost st = some st.reconnectDelay ↔ st.shutdown = false)
    ∧ (handle_connect_failure st = none ↔ st.shutdown = true)
    ∧ (handle_connect_failure st = some st.reconnectDelay ↔ st.shutdown = false)
    ∧ ((send_data st d w).2 = some st.reconnectDelay
        ↔ (st.shutdown = false ∧ st.transport = true ∧ w = false))
    ∧ ((send_data st d w).2 = none ∨ (send_data st d w).2 = some st.reconnectDelay) := by
  cases hs : st.shutdown <;> cases ht : st.transport <;> cases w <;>
    simp [connection_lost, handle_connect_failure, send_data, hs, ht]
